import Mathlib

/-!
Verification development for the Cli-Calculator repository (calculator.cpp).

The embedding models the final iteration of the program: the `Lexer`, `Token`,
`Error`, `Parser` and `Expression` classes together with `ProcessInput`
(calculator.cpp, lines 289-630).

Modelling conventions:
- The C++ source string is a `List Char`; byte offsets are `Nat` indices.
- The C++ `float` values are modelled as exact rationals: `std::stof` is
  modelled by `stofModel`, which reads the decimal digit string exactly
  (the binary32 rounding performed by the real `std::stof` is abstracted
  away; every concrete value appearing in the theorems below is a small
  decimal for which only the token boundary and the decimal reading matter).
- IEEE-754 special values (infinities, NaN) are modelled by the carrier
  `FloatVal`; its arithmetic implements the IEEE-754 rules for special
  operands exactly and is exact (no rounding) on finite operands.
- The parser's `throw 1` / `catch (int)` control flow is modelled by the
  explicit result `PRes.thrown`; an out-of-bounds `std::vector` index
  (undefined behaviour in C++) is modelled by the explicit marker
  `PRes.oob` / `ParseResult.oobUB`.
- The mutually recursive parser functions take a fuel argument so that the
  recursion is structural; `Parser.Parse` supplies `3 * tokens.length + 3`
  fuel, which is never exhausted on the inputs considered (fuel is consumed
  once per nested call).
-/

/-- Token::Type from calculator.cpp line 322. -/
inductive TokenType where
  | ADD
  | SUB
  | MUL
  | DIV
  | LITERAL
  | RIGHT_PAREN
  | LEFT_PAREN
deriving DecidableEq, BEq

/-- Token from calculator.cpp lines 320-331: a type tag plus a literal value.
In C++ `literal_value` is uninitialised for non-literal tokens and is never
read for them; the model stores 0 there. -/
structure Token where
  token_type : TokenType
  literal_value : ℚ
deriving DecidableEq

/-- Error::Type from calculator.cpp line 291. -/
inductive ErrorType where
  | NO_ERROR
  | INVALID_CHAR
  | INVALID_TOKEN
  | END_OF_STREAM
deriving DecidableEq

/-- Error from calculator.cpp lines 289-318: an error kind plus a byte offset
into the source line.  The `source` string_view member only feeds the
`operator<<` rendering and is omitted. -/
structure Error where
  type : ErrorType
  location : Nat
deriving DecidableEq

/-- Lexer::IsDigit, calculator.cpp lines 403-405. -/
def Lexer.IsDigit (c : Char) : Bool :=
  '0' ≤ c && c ≤ '9'

/-- Lexer::IsWhiteSpace, calculator.cpp lines 407-409: std::isspace in the C
locale accepts space and the characters 9-13 (tab, newline, vertical tab,
form feed, carriage return). -/
def Lexer.IsWhiteSpace (c : Char) : Bool :=
  c = ' ' || (9 ≤ c.toNat && c.toNat ≤ 13)

/-- The scanning loop of Lexer::GetLiteral, calculator.cpp lines 418-423:
starting from the current position, count how many characters the loop
consumes.  It consumes digits, and a '.' only while `has_decimal_point` is
still false.  (Reading one past the end of a std::string yields the null
character, which stops the loop, matching the nil case here.) -/
def Lexer.munch : List Char → Bool → Nat
  | [], _ => 0
  | c :: rest, hasDp =>
    if Lexer.IsDigit c then 1 + Lexer.munch rest hasDp
    else if !hasDp && c = '.' then 1 + Lexer.munch rest true
    else 0

/-- Helper for `stofModel`: fold over the characters of a literal, tracking
the optional scale once a decimal point has been seen. -/
def stofGo : List Char → ℚ → Option ℚ → ℚ
  | [], acc, _ => acc
  | c :: rest, acc, none =>
    if c = '.' then stofGo rest acc (some (1 / 10))
    else stofGo rest (acc * 10 + (c.toNat - 48 : Nat)) none
  | c :: rest, acc, some sc => stofGo rest (acc + sc * (c.toNat - 48 : Nat)) (some (sc / 10))

/-- Model of std::stof (calculator.cpp line 427) on a string matching
digit+ ('.' digit*)?: the exact rational value of the decimal string.
The binary32 rounding of the real std::stof is abstracted away. -/
def stofModel (cs : List Char) : ℚ := stofGo cs 0 none

/-- Lexer::GetLiteral, calculator.cpp lines 411-428.  Takes the source suffix
starting at the current position; returns the parsed value, the success flag,
and the number of characters consumed.  A suffix that does not start with a
digit (".234" in the source comment) is rejected with no characters
consumed. -/
def Lexer.GetLiteral (cs : List Char) : ℚ × Bool × Nat :=
  match cs with
  | [] => (0, false, 0)
  | c :: _ =>
    if Lexer.IsDigit c then
      (stofModel (cs.take (Lexer.munch cs false)), true, Lexer.munch cs false)
    else (0, false, 0)

/-- The while loop of Lexer::Scan, calculator.cpp lines 339-384.  `cs` is the
source suffix not yet consumed, `pos` the current byte offset, `toks` and
`poss` the token and token-position vectors accumulated so far.  Returns the
final vectors together with the Error that Scan returns.  Note the source
pushes the position onto `token_positions` before attempting GetLiteral, so
on an invalid character the positions vector has one more entry than the
token vector, exactly as in the C++. -/
def Lexer.scanGo (cs : List Char) (pos : Nat) (toks : List Token) (poss : List Nat) :
    List Token × List Nat × Error :=
  match cs with
  | [] => (toks, poss, ⟨.NO_ERROR, 0⟩)
  | c :: rest =>
    if Lexer.IsWhiteSpace c then Lexer.scanGo rest (pos + 1) toks poss
    else if c = '+' then Lexer.scanGo rest (pos + 1) (toks ++ [⟨.ADD, 0⟩]) (poss ++ [pos])
    else if c = '-' then Lexer.scanGo rest (pos + 1) (toks ++ [⟨.SUB, 0⟩]) (poss ++ [pos])
    else if c = '*' then Lexer.scanGo rest (pos + 1) (toks ++ [⟨.MUL, 0⟩]) (poss ++ [pos])
    else if c = '/' then Lexer.scanGo rest (pos + 1) (toks ++ [⟨.DIV, 0⟩]) (poss ++ [pos])
    else if c = '(' then Lexer.scanGo rest (pos + 1) (toks ++ [⟨.LEFT_PAREN, 0⟩]) (poss ++ [pos])
    else if c = ')' then Lexer.scanGo rest (pos + 1) (toks ++ [⟨.RIGHT_PAREN, 0⟩]) (poss ++ [pos])
    else
      match h : Lexer.GetLiteral (c :: rest) with
      | (value, true, n) =>
        Lexer.scanGo ((c :: rest).drop n) (pos + n) (toks ++ [⟨.LITERAL, value⟩]) (poss ++ [pos])
      | (_, false, _) => (toks, poss ++ [pos], ⟨.INVALID_CHAR, pos⟩)
termination_by cs.length
decreasing_by
  all_goals simp
  have h1 : ∀ (cs : List Char) (v : ℚ) (n : Nat),
      Lexer.GetLiteral cs = (v, true, n) → 1 ≤ n := by
    intro cs v n hGL
    cases cs with
    | nil => simp [Lexer.GetLiteral] at hGL
    | cons c rest =>
      by_cases hd : Lexer.IsDigit c
      · simp [Lexer.GetLiteral, hd, Lexer.munch] at hGL
        omega
      · simp [Lexer.GetLiteral, hd] at hGL
  have := h1 _ _ _ h
  simp [List.length_drop]
  omega

/-- Lexer::Scan, calculator.cpp lines 338-386, together with GetTokens and
GetPositions: scan a whole source line from offset 0. -/
def Lexer.Scan (src : List Char) : List Token × List Nat × Error :=
  Lexer.scanGo src 0 [] []

/-- The Expression class hierarchy, calculator.cpp lines 431-496, as a closed
sum: LiteralExpression plus the four BinaryExpression subclasses. -/
inductive Expression where
  | literalExpression (value : ℚ)
  | addExpression (lhs rhs : Expression)
  | subtractExpression (lhs rhs : Expression)
  | multiplyExpression (lhs rhs : Expression)
  | divideExpression (lhs rhs : Expression)
deriving DecidableEq

/-- Carrier for C++ float values: an exact finite rational, the two
infinities, or NaN.  Finite magnitudes are exact (binary32 rounding is
abstracted away); the special values follow IEEE-754. -/
inductive FloatVal where
  | num (q : ℚ)
  | posInf
  | negInf
  | nan
deriving DecidableEq

/-- IEEE-754 addition on the model carrier (exact on finite operands). -/
def FloatVal.add : FloatVal → FloatVal → FloatVal
  | .nan, _ => .nan
  | _, .nan => .nan
  | .posInf, .negInf => .nan
  | .negInf, .posInf => .nan
  | .posInf, _ => .posInf
  | _, .posInf => .posInf
  | .negInf, _ => .negInf
  | _, .negInf => .negInf
  | .num a, .num b => .num (a + b)

/-- IEEE-754 subtraction on the model carrier (exact on finite operands). -/
def FloatVal.sub : FloatVal → FloatVal → FloatVal
  | .nan, _ => .nan
  | _, .nan => .nan
  | .posInf, .posInf => .nan
  | .negInf, .negInf => .nan
  | .posInf, _ => .posInf
  | .negInf, _ => .negInf
  | _, .posInf => .negInf
  | _, .negInf => .posInf
  | .num a, .num b => .num (a - b)

/-- IEEE-754 multiplication on the model carrier (exact on finite operands). -/
def FloatVal.mul : FloatVal → FloatVal → FloatVal
  | .nan, _ => .nan
  | _, .nan => .nan
  | .posInf, .posInf => .posInf
  | .posInf, .negInf => .negInf
  | .negInf, .posInf => .negInf
  | .negInf, .negInf => .posInf
  | .posInf, .num b => if 0 < b then .posInf else if b < 0 then .negInf else .nan
  | .num a, .posInf => if 0 < a then .posInf else if a < 0 then .negInf else .nan
  | .negInf, .num b => if 0 < b then .negInf else if b < 0 then .posInf else .nan
  | .num a, .negInf => if 0 < a then .negInf else if a < 0 then .posInf else .nan
  | .num a, .num b => .num (a * b)

/-- IEEE-754 division on the model carrier (exact on finite operands): a
positive finite value divided by zero is positive infinity, a negative one
negative infinity, zero divided by zero is NaN; a finite value divided by an
infinity is zero (the sign of zero is not representable in the model). -/
def FloatVal.div : FloatVal → FloatVal → FloatVal
  | .nan, _ => .nan
  | _, .nan => .nan
  | .posInf, .posInf => .nan
  | .posInf, .negInf => .nan
  | .negInf, .posInf => .nan
  | .negInf, .negInf => .nan
  | .posInf, .num b => if 0 ≤ b then .posInf else .negInf
  | .negInf, .num b => if 0 ≤ b then .negInf else .posInf
  | .num _, .posInf => .num 0
  | .num _, .negInf => .num 0
  | .num a, .num b =>
    if b = 0 then (if 0 < a then .posInf else if a < 0 then .negInf else .nan)
    else .num (a / b)

/-- Expression::Evaluate, calculator.cpp lines 433-495: the virtual dispatch
over the five node classes, each combining the recursively evaluated
children with plain floating-point arithmetic.  The function is total: there
is no failure path and no zero-check anywhere. -/
def Expression.Evaluate : Expression → FloatVal
  | .literalExpression v => .num v
  | .addExpression l r => FloatVal.add l.Evaluate r.Evaluate
  | .subtractExpression l r => FloatVal.sub l.Evaluate r.Evaluate
  | .multiplyExpression l r => FloatVal.mul l.Evaluate r.Evaluate
  | .divideExpression l r => FloatVal.div l.Evaluate r.Evaluate

/-- Result of a parsing routine (Term/Factor/Primary): a successfully built
subtree with the new position, the `throw 1` control flow with the position
the parser member variable holds when the exception is raised, an
out-of-bounds vector access (C++ undefined behaviour), or fuel exhaustion
(an artifact of the model, see the header). -/
inductive PRes where
  | ok (e : Expression) (pos : Nat)
  | thrown (pos : Nat)
  | oob
  | fuelOut
deriving DecidableEq

/-- Result of Parser::Consume. -/
inductive ConsumeRes where
  | ok (pos : Nat)
  | thrown (pos : Nat)
  | oob
deriving DecidableEq

/-- Parser::IsAtEnd, calculator.cpp lines 549-551. -/
def Parser.IsAtEnd (tokens : List Token) (pos : Nat) : Bool :=
  pos == tokens.length

/-- Parser::Check, calculator.cpp lines 542-547 (Parser::Match is Check, or a
disjunction of Checks, and is inlined at its call sites below). -/
def Parser.Check (tokens : List Token) (pos : Nat) (t : TokenType) : Bool :=
  if Parser.IsAtEnd tokens pos then false
  else
    match tokens.get? pos with
    | some tok => tok.token_type == t
    | none => false

/-- Parser::Consume, calculator.cpp lines 553-558.  The C++ reads
`tokens[position]` with no bounds check; when `position` is past the end of
the vector this is undefined behaviour, modelled by `.oob`. -/
def Parser.Consume (tokens : List Token) (pos : Nat) (t : TokenType) : ConsumeRes :=
  match tokens.get? pos with
  | none => .oob
  | some tok => if tok.token_type == t then .ok (pos + 1) else .thrown pos

mutual

/-- Parser::Term, calculator.cpp lines 560-575: the initial Factor call; the
while loop is `Parser.TermLoop`. -/
def Parser.Term (fuel : Nat) (tokens : List Token) (pos : Nat) : PRes :=
  if fuel = 0 then .fuelOut
  else
    match Parser.Factor (fuel - 1) tokens pos with
    | .ok e p => Parser.TermLoop (fuel - 1) tokens e p
    | r => r
termination_by fuel

/-- The while loop of Parser::Term: as long as the next token is ADD or SUB,
consume it, parse a Factor, and fold the result into the left operand. -/
def Parser.TermLoop (fuel : Nat) (tokens : List Token) (e : Expression) (pos : Nat) : PRes :=
  if fuel = 0 then .fuelOut
  else
    if Parser.Check tokens pos .ADD || Parser.Check tokens pos .SUB then
      match tokens.get? pos with
      | none => .oob
      | some tok =>
        match Parser.Factor (fuel - 1) tokens (pos + 1) with
        | .ok rhs p =>
          if tok.token_type == .ADD then
            Parser.TermLoop (fuel - 1) tokens (.addExpression e rhs) p
          else
            Parser.TermLoop (fuel - 1) tokens (.subtractExpression e rhs) p
        | r => r
    else .ok e pos
termination_by fuel

/-- Parser::Factor, calculator.cpp lines 577-592: the initial Primary call;
the while loop is `Parser.FactorLoop`. -/
def Parser.Factor (fuel : Nat) (tokens : List Token) (pos : Nat) : PRes :=
  if fuel = 0 then .fuelOut
  else
    match Parser.Primary (fuel - 1) tokens pos with
    | .ok e p => Parser.FactorLoop (fuel - 1) tokens e p
    | r => r
termination_by fuel

/-- The while loop of Parser::Factor: as long as the next token is MUL or
DIV, consume it, parse a Primary, and fold into the left operand. -/
def Parser.FactorLoop (fuel : Nat) (tokens : List Token) (e : Expression) (pos : Nat) : PRes :=
  if fuel = 0 then .fuelOut
  else
    if Parser.Check tokens pos .MUL || Parser.Check tokens pos .DIV then
      match tokens.get? pos with
      | none => .oob
      | some tok =>
        match Parser.Primary (fuel - 1) tokens (pos + 1) with
        | .ok rhs p =>
          if tok.token_type == .MUL then
            Parser.FactorLoop (fuel - 1) tokens (.multiplyExpression e rhs) p
          else
            Parser.FactorLoop (fuel - 1) tokens (.divideExpression e rhs) p
        | r => r
    else .ok e pos
termination_by fuel

/-- Parser::Primary, calculator.cpp lines 594-609: a literal token becomes a
leaf; a left parenthesis recursively parses a Term and Consumes the matching
right parenthesis; otherwise `throw 1`. -/
def Parser.Primary (fuel : Nat) (tokens : List Token) (pos : Nat) : PRes :=
  if fuel = 0 then .fuelOut
  else
    if Parser.Check tokens pos .LITERAL then
      match tokens.get? pos with
      | some tok => .ok (.literalExpression tok.literal_value) (pos + 1)
      | none => .oob
    else if Parser.Check tokens pos .LEFT_PAREN then
      match Parser.Term (fuel - 1) tokens (pos + 1) with
      | .ok e p =>
        match Parser.Consume tokens p .RIGHT_PAREN with
        | .ok p2 => .ok e p2
        | .thrown p2 => .thrown p2
        | .oob => .oob
      | r => r
    else .thrown pos
termination_by fuel

end

/-- Result of Parser::Parse combined with Parser::GetAST: either the Error is
NO_ERROR and the AST is available, or a diagnostic Error is returned.
`oobUB` marks the undefined behaviour of an out-of-bounds token access, and
`outOfFuel` is the model artifact (see the header). -/
inductive ParseResult where
  | success (ast : Expression)
  | failure (e : Error)
  | oobUB
  | outOfFuel
deriving DecidableEq

/-- Parser::Parse, calculator.cpp lines 504-519.  The try block runs Term
from position 0; the catch block maps an exception at end of stream to
END_OF_STREAM at the end-of-source offset and any other exception to
INVALID_TOKEN at the offending token's source position; finally, leftover
tokens after a successful Term give INVALID_TOKEN at the first leftover
token's position.  `sourceLen` is `source.size()`. -/
def Parser.Parse (tokens : List Token) (token_positions : List Nat) (sourceLen : Nat) :
    ParseResult :=
  match Parser.Term (3 * tokens.length + 3) tokens 0 with
  | .ok e p =>
    if p = tokens.length then .success e
    else .failure ⟨.INVALID_TOKEN, token_positions.getD p 0⟩
  | .thrown p =>
    if p = tokens.length then .failure ⟨.END_OF_STREAM, sourceLen⟩
    else .failure ⟨.INVALID_TOKEN, token_positions.getD p 0⟩
  | .oob => .oobUB
  | .fuelOut => .outOfFuel

/-- Result of ProcessInput: the printed evaluation value, or the printed
scanner/parser diagnostic, or the two model markers inherited from
`ParseResult`. -/
inductive PipelineResult where
  | scanError (e : Error)
  | parseError (e : Error)
  | value (v : FloatVal)
  | ub
  | modelOutOfFuel
deriving DecidableEq

/-- ProcessInput, calculator.cpp lines 612-630: scan, stop on a scan error,
parse, stop on a parse error, evaluate the AST. -/
def ProcessInput (input : List Char) : PipelineResult :=
  match Lexer.Scan input with
  | (tokens, positions, err) =>
    if err.type = ErrorType.NO_ERROR then
      match Parser.Parse tokens positions input.length with
      | .success ast => .value ast.Evaluate
      | .failure e => .parseError e
      | .oobUB => .ub
      | .outOfFuel => .modelOutOfFuel
    else .scanError err

def Lexer.digitRun (cs : List Char) : Nat := (cs.takeWhile Lexer.IsDigit).length

def literalMunchSpec (cs : List Char) : Nat :=
  if ((cs.drop (Lexer.digitRun cs)).head? = some '.') then
    Lexer.digitRun cs + 1 + Lexer.digitRun ((cs.drop (Lexer.digitRun cs)).tail)
  else Lexer.digitRun cs

/-- Helper naming the Binary node each operator token type produces (the
if/else bodies of the while loops in Parser::Term and Parser::Factor). -/
def binaryFor (t : TokenType) (l r : Expression) : Expression :=
  match t with
  | .ADD => .addExpression l r
  | .SUB => .subtractExpression l r
  | .MUL => .multiplyExpression l r
  | .DIV => .divideExpression l r
  | _ => .literalExpression 0

/-- Bit width of the C++ type of Token::literal_value (calculator.cpp line
330): the member is declared `float`, the IEEE-754 binary32 type of the
g++/C++17 toolchain the makefile selects, i.e. 32 bits — not 64. -/
def Token.literal_value_bit_width : Nat := 32

/-- Bit width of the return type of Expression::Evaluate (calculator.cpp
line 433): the virtual function returns `float`, i.e. 32 bits — not 64. -/
def Expression.Evaluate_result_bit_width : Nat := 32

theorem Lexer.munch_true_eq_digitRun (cs : List Char) :
    Lexer.munch cs true = Lexer.digitRun cs := by
  induction cs with
  | nil => simp [Lexer.munch, Lexer.digitRun]
  | cons c rest ih =>
    by_cases h : Lexer.IsDigit c
    · simp [Lexer.munch, Lexer.digitRun, h, List.takeWhile_cons] at *
      omega
    · simp [Lexer.munch, Lexer.digitRun, h, List.takeWhile_cons]

theorem Lexer.munch_false_eq_spec (cs : List Char) :
    Lexer.munch cs false = literalMunchSpec cs := by
  induction cs with
  | nil => simp [Lexer.munch, literalMunchSpec, Lexer.digitRun]
  | cons c rest ih =>
    by_cases h : Lexer.IsDigit c
    · have hdr : Lexer.digitRun (c :: rest) = Lexer.digitRun rest + 1 := by
        simp [Lexer.digitRun, List.takeWhile_cons, h]
      have hdrop : (c :: rest).drop (Lexer.digitRun (c :: rest)) =
          rest.drop (Lexer.digitRun rest) := by
        rw [hdr]
        simp [List.drop_succ_cons]
      have hspec : literalMunchSpec (c :: rest) = 1 + literalMunchSpec rest := by
        simp only [literalMunchSpec, hdrop]
        by_cases hh : (rest.drop (Lexer.digitRun rest)).head? = some '.'
        · rw [if_pos hh, if_pos hh, hdr]
          omega
        · rw [if_neg hh, if_neg hh, hdr]
          omega
      simp only [Lexer.munch, h, if_true, ih, hspec]
    · by_cases hdot : c = '.'
      · subst hdot
        have hdr0 : Lexer.digitRun ('.' :: rest) = 0 := by
          simp [Lexer.digitRun, List.takeWhile_cons, h]
        simp [Lexer.munch, h, literalMunchSpec, hdr0, Lexer.munch_true_eq_digitRun]
      · have hdr0 : Lexer.digitRun (c :: rest) = 0 := by
          simp [Lexer.digitRun, List.takeWhile_cons, h]
        simp [Lexer.munch, h, hdot, literalMunchSpec, hdr0]

theorem Lexer.take_munch_true (cs : List Char) :
    cs.take (Lexer.munch cs true) = cs.takeWhile Lexer.IsDigit := by
  induction cs with
  | nil => simp [Lexer.munch]
  | cons c rest ih =>
    by_cases h : Lexer.IsDigit c
    · simp [Lexer.munch, h, List.takeWhile_cons, Nat.add_comm, List.take_succ_cons, ih]
    · simp [Lexer.munch, h, List.takeWhile_cons]

theorem Lexer.count_dot_takeWhile (cs : List Char) :
    (cs.takeWhile Lexer.IsDigit).count '.' = 0 := by
  rw [List.count_eq_zero]
  intro hmem
  have := List.mem_takeWhile_imp hmem
  simp [Lexer.IsDigit] at this

theorem Lexer.munch_take_count (cs : List Char) :
    ((cs.take (Lexer.munch cs false)).count '.') ≤ 1 := by
  induction cs with
  | nil => simp [Lexer.munch]
  | cons c rest ih =>
    by_cases h : Lexer.IsDigit c
    · have hne : c ≠ '.' := by
        intro hc
        subst hc
        simp [Lexer.IsDigit] at h
      simp [Lexer.munch, h, Nat.add_comm, List.take_succ_cons, List.count_cons, hne]
      exact ih
    · by_cases hdot : c = '.'
      · subst hdot
        simp [Lexer.munch, h, Nat.add_comm, List.take_succ_cons, List.count_cons,
          Lexer.take_munch_true, Lexer.count_dot_takeWhile]
      · simp [Lexer.munch, h, hdot]

theorem stofGo_nonneg (cs : List Char) (acc : ℚ) (sc : Option ℚ)
    (hacc : 0 ≤ acc) (hsc : ∀ q, sc = some q → 0 ≤ q) : 0 ≤ stofGo cs acc sc := by
  induction cs generalizing acc sc with
  | nil => simpa [stofGo] using hacc
  | cons c rest ih =>
    match sc with
    | none =>
      by_cases hdot : c = '.'
      · simp only [stofGo, hdot, if_true]
        apply ih _ _ hacc
        intro q hq
        simp at hq
        rw [← hq]
        norm_num
      · simp only [stofGo, hdot, if_false]
        apply ih _ _ _ (fun q hq => by simp at hq)
        positivity
    | some s =>
      have hs : 0 ≤ s := hsc s rfl
      simp only [stofGo]
      apply ih
      · positivity
      · intro q hq
        simp at hq
        rw [← hq]
        positivity

theorem stofModel_nonneg (cs : List Char) : 0 ≤ stofModel cs :=
  stofGo_nonneg cs 0 none le_rfl (fun q hq => by simp at hq)

theorem Lexer.GetLiteral_success_val (cs : List Char) (v : ℚ) (n : Nat)
    (h : Lexer.GetLiteral cs = (v, true, n)) : 0 ≤ v := by
  match cs with
  | [] => simp [Lexer.GetLiteral] at h
  | c :: rest =>
    by_cases hd : Lexer.IsDigit c
    · simp [Lexer.GetLiteral, hd] at h
      rw [← h.1]
      exact stofModel_nonneg _
    · simp [Lexer.GetLiteral, hd] at h

theorem pre_extend (toks : List Token) (tk : Token)
    (hpre : ∀ t ∈ toks, 0 ≤ t.literal_value) (hv : 0 ≤ tk.literal_value) :
    ∀ t ∈ toks ++ [tk], 0 ≤ t.literal_value := by
  intro t ht
  rcases List.mem_append.mp ht with hmem | hmem
  · exact hpre t hmem
  · rw [List.mem_singleton.mp hmem]
    exact hv

theorem Lexer.scanGo_all_nonneg (cs : List Char) (pos : Nat) (toks : List Token)
    (poss : List Nat) (hpre : ∀ t ∈ toks, 0 ≤ t.literal_value) :
    ∀ t ∈ (Lexer.scanGo cs pos toks poss).1, 0 ≤ t.literal_value := by
  induction cs, pos, toks, poss using Lexer.scanGo.induct with
  | case1 pos toks poss =>
    simpa [Lexer.scanGo] using hpre
  | case2 pos toks poss c tail hws ih =>
    have hstep : Lexer.scanGo (c :: tail) pos toks poss =
        Lexer.scanGo tail (pos + 1) toks poss := by
      rw [Lexer.scanGo.eq_def]
      simp [hws]
    rw [hstep]
    exact ih hpre
  | case3 pos toks poss tail hws ih =>
    have hstep : Lexer.scanGo ('+' :: tail) pos toks poss =
        Lexer.scanGo tail (pos + 1) (toks ++ [⟨.ADD, 0⟩]) (poss ++ [pos]) := by
      rw [Lexer.scanGo.eq_def]
      simp +decide
    rw [hstep]
    exact ih (pre_extend _ _ hpre le_rfl)
  | case4 pos toks poss tail h1 h2 ih =>
    have hstep : Lexer.scanGo ('-' :: tail) pos toks poss =
        Lexer.scanGo tail (pos + 1) (toks ++ [⟨.SUB, 0⟩]) (poss ++ [pos]) := by
      rw [Lexer.scanGo.eq_def]
      simp +decide
    rw [hstep]
    exact ih (pre_extend _ _ hpre le_rfl)
  | case5 pos toks poss tail h1 h2 h3 ih =>
    have hstep : Lexer.scanGo ('*' :: tail) pos toks poss =
        Lexer.scanGo tail (pos + 1) (toks ++ [⟨.MUL, 0⟩]) (poss ++ [pos]) := by
      rw [Lexer.scanGo.eq_def]
      simp +decide
    rw [hstep]
    exact ih (pre_extend _ _ hpre le_rfl)
  | case6 pos toks poss tail h1 h2 h3 h4 ih =>
    have hstep : Lexer.scanGo ('/' :: tail) pos toks poss =
        Lexer.scanGo tail (pos + 1) (toks ++ [⟨.DIV, 0⟩]) (poss ++ [pos]) := by
      rw [Lexer.scanGo.eq_def]
      simp +decide
    rw [hstep]
    exact ih (pre_extend _ _ hpre le_rfl)
  | case7 pos toks poss tail h1 h2 h3 h4 h5 ih =>
    have hstep : Lexer.scanGo ('(' :: tail) pos toks poss =
        Lexer.scanGo tail (pos + 1) (toks ++ [⟨.LEFT_PAREN, 0⟩]) (poss ++ [pos]) := by
      rw [Lexer.scanGo.eq_def]
      simp +decide
    rw [hstep]
    exact ih (pre_extend _ _ hpre le_rfl)
  | case8 pos toks poss tail h1 h2 h3 h4 h5 h6 ih =>
    have hstep : Lexer.scanGo (')' :: tail) pos toks poss =
        Lexer.scanGo tail (pos + 1) (toks ++ [⟨.RIGHT_PAREN, 0⟩]) (poss ++ [pos]) := by
      rw [Lexer.scanGo.eq_def]
      simp +decide
    rw [hstep]
    exact ih (pre_extend _ _ hpre le_rfl)
  | case9 pos toks poss c tail h1 h2 h3 h4 h5 h6 h7 value n hGL ih =>
    have hstep : Lexer.scanGo (c :: tail) pos toks poss =
        Lexer.scanGo ((c :: tail).drop n) (pos + n)
          (toks ++ [⟨.LITERAL, value⟩]) (poss ++ [pos]) := by
      rw [Lexer.scanGo.eq_def]
      simp only [h1, h2, h3, h4, h5, h6, h7, if_neg, if_false, Bool.false_eq_true]
      split
      next v2 n2 heq =>
        rw [hGL] at heq
        injection heq with hv rest2
        injection rest2 with _ hn
        rw [hv, hn]
      next v2 n2 heq =>
        rw [hGL] at heq
        injection heq with _ rest2
        injection rest2 with hbool _
        exact absurd hbool.symm (by simp)
    rw [hstep]
    exact ih (pre_extend _ _ hpre (Lexer.GetLiteral_success_val _ _ _ hGL))
  | case10 pos toks poss c tail h1 h2 h3 h4 h5 h6 h7 v n hGL =>
    have hstep : Lexer.scanGo (c :: tail) pos toks poss =
        (toks, poss ++ [pos], ⟨.INVALID_CHAR, pos⟩) := by
      rw [Lexer.scanGo.eq_def]
      simp only [h1, h2, h3, h4, h5, h6, h7, if_neg, if_false, Bool.false_eq_true]
      split
      next v2 n2 heq =>
        rw [hGL] at heq
        injection heq with _ rest2
        injection rest2 with hbool _
        exact absurd hbool (by simp)
      next v2 n2 heq => rfl
    rw [hstep]
    exact fun t ht => hpre t ht

/-- Claim C1: multiplication and division bind tighter than addition and
subtraction, because the grammar layers term over factor over primary: a
stream literal-additive-literal-multiplicative-literal parses as
a op1 (b op2 c), a parenthesised additive group followed by a
multiplicative operator parses as (a op1 b) op2 c, and concretely
"2 + 3 * 4" evaluates to 14 while "(2 + 3) * 4" evaluates to 20. -/
theorem c1_mul_div_bind_tighter :
    (∀ (o1 o2 : TokenType) (a b c : ℚ) (poss : List Nat) (slen : Nat),
      o1 = TokenType.ADD ∨ o1 = TokenType.SUB →
      o2 = TokenType.MUL ∨ o2 = TokenType.DIV →
      Parser.Parse [⟨.LITERAL, a⟩, ⟨o1, 0⟩, ⟨.LITERAL, b⟩, ⟨o2, 0⟩, ⟨.LITERAL, c⟩] poss slen
        = .success (binaryFor o1 (.literalExpression a)
            (binaryFor o2 (.literalExpression b) (.literalExpression c)))) ∧
    (∀ (o1 o2 : TokenType) (a b c : ℚ) (poss : List Nat) (slen : Nat),
      o1 = TokenType.ADD ∨ o1 = TokenType.SUB →
      o2 = TokenType.MUL ∨ o2 = TokenType.DIV →
      Parser.Parse [⟨.LEFT_PAREN, 0⟩, ⟨.LITERAL, a⟩, ⟨o1, 0⟩, ⟨.LITERAL, b⟩,
          ⟨.RIGHT_PAREN, 0⟩, ⟨o2, 0⟩, ⟨.LITERAL, c⟩] poss slen
        = .success (binaryFor o2
            (binaryFor o1 (.literalExpression a) (.literalExpression b))
            (.literalExpression c))) ∧
    ProcessInput ("2 + 3 * 4".toList) = .value (.num 14) ∧
    ProcessInput ("(2 + 3) * 4".toList) = .value (.num 20) := by
  refine ⟨?_, ?_, ?_, ?_⟩
  · rintro o1 o2 a b c poss slen (rfl | rfl) (rfl | rfl) <;>
      simp +decide [Parser.Parse, Parser.Term, Parser.TermLoop, Parser.Factor,
        Parser.FactorLoop, Parser.Primary, Parser.Check, Parser.IsAtEnd, Parser.Consume,
        binaryFor]
  · rintro o1 o2 a b c poss slen (rfl | rfl) (rfl | rfl) <;>
      simp +decide [Parser.Parse, Parser.Term, Parser.TermLoop, Parser.Factor,
        Parser.FactorLoop, Parser.Primary, Parser.Check, Parser.IsAtEnd, Parser.Consume,
        binaryFor]
  · simp +decide [ProcessInput, Lexer.Scan, Lexer.scanGo, Lexer.GetLiteral, Lexer.munch,
      Lexer.IsDigit, Lexer.IsWhiteSpace, stofModel, stofGo, Parser.Parse, Parser.Term,
      Parser.TermLoop, Parser.Factor, Parser.FactorLoop, Parser.Primary, Parser.Check,
      Parser.IsAtEnd, Parser.Consume, Expression.Evaluate, FloatVal.add, FloatVal.mul]
    norm_num
  · simp +decide [ProcessInput, Lexer.Scan, Lexer.scanGo, Lexer.GetLiteral, Lexer.munch,
      Lexer.IsDigit, Lexer.IsWhiteSpace, stofModel, stofGo, Parser.Parse, Parser.Term,
      Parser.TermLoop, Parser.Factor, Parser.FactorLoop, Parser.Primary, Parser.Check,
      Parser.IsAtEnd, Parser.Consume, Expression.Evaluate, FloatVal.add, FloatVal.mul]
    norm_num

/-- Witness for C1: the instantiation at ADD, MUL, 2, 3, 4. -/
theorem c1_mul_div_bind_tighter_witness :
    Parser.Parse [⟨.LITERAL, 2⟩, ⟨.ADD, 0⟩, ⟨.LITERAL, 3⟩, ⟨.MUL, 0⟩, ⟨.LITERAL, 4⟩] [] 0
      = .success (.addExpression (.literalExpression 2)
          (.multiplyExpression (.literalExpression 3) (.literalExpression 4))) :=
  c1_mul_div_bind_tighter.1 .ADD .MUL 2 3 4 [] 0 (Or.inl rfl) (Or.inl rfl)

/-- Claim C2: chains of same-precedence operators fold into a left-leaning
chain of Binary nodes (for ADD/SUB at the term level and for MUL/DIV at the
factor level), so evaluation is left-to-right; concretely "8 - 3 - 2"
evaluates to 3 and not to 7. -/
theorem c2_left_associativity :
    (∀ (o1 o2 : TokenType) (a b c : ℚ) (poss : List Nat) (slen : Nat),
      o1 = TokenType.ADD ∨ o1 = TokenType.SUB →
      o2 = TokenType.ADD ∨ o2 = TokenType.SUB →
      Parser.Parse [⟨.LITERAL, a⟩, ⟨o1, 0⟩, ⟨.LITERAL, b⟩, ⟨o2, 0⟩, ⟨.LITERAL, c⟩] poss slen
        = .success (binaryFor o2
            (binaryFor o1 (.literalExpression a) (.literalExpression b))
            (.literalExpression c))) ∧
    (∀ (o1 o2 : TokenType) (a b c : ℚ) (poss : List Nat) (slen : Nat),
      o1 = TokenType.MUL ∨ o1 = TokenType.DIV →
      o2 = TokenType.MUL ∨ o2 = TokenType.DIV →
      Parser.Parse [⟨.LITERAL, a⟩, ⟨o1, 0⟩, ⟨.LITERAL, b⟩, ⟨o2, 0⟩, ⟨.LITERAL, c⟩] poss slen
        = .success (binaryFor o2
            (binaryFor o1 (.literalExpression a) (.literalExpression b))
            (.literalExpression c))) ∧
    ProcessInput ("8 - 3 - 2".toList) = .value (.num 3) ∧
    ProcessInput ("8 - 3 - 2".toList) ≠ .value (.num 7) := by
  have h3 : ProcessInput ("8 - 3 - 2".toList) = .value (.num 3) := by
    simp +decide [ProcessInput, Lexer.Scan, Lexer.scanGo, Lexer.GetLiteral, Lexer.munch,
      Lexer.IsDigit, Lexer.IsWhiteSpace, stofModel, stofGo, Parser.Parse, Parser.Term,
      Parser.TermLoop, Parser.Factor, Parser.FactorLoop, Parser.Primary, Parser.Check,
      Parser.IsAtEnd, Parser.Consume, Expression.Evaluate, FloatVal.sub]
    norm_num
  refine ⟨?_, ?_, h3, ?_⟩
  · rintro o1 o2 a b c poss slen (rfl | rfl) (rfl | rfl) <;>
      simp +decide [Parser.Parse, Parser.Term, Parser.TermLoop, Parser.Factor,
        Parser.FactorLoop, Parser.Primary, Parser.Check, Parser.IsAtEnd, Parser.Consume,
        binaryFor]
  · rintro o1 o2 a b c poss slen (rfl | rfl) (rfl | rfl) <;>
      simp +decide [Parser.Parse, Parser.Term, Parser.TermLoop, Parser.Factor,
        Parser.FactorLoop, Parser.Primary, Parser.Check, Parser.IsAtEnd, Parser.Consume,
        binaryFor]
  · rw [h3]
    intro hcontra
    injection hcontra with hv
    injection hv with hq
    norm_num at hq

/-- Witness for C2: the instantiation at SUB, SUB, 8, 3, 2. -/
theorem c2_left_associativity_witness :
    Parser.Parse [⟨.LITERAL, 8⟩, ⟨.SUB, 0⟩, ⟨.LITERAL, 3⟩, ⟨.SUB, 0⟩, ⟨.LITERAL, 2⟩] [] 0
      = .success (.subtractExpression
          (.subtractExpression (.literalExpression 8) (.literalExpression 3))
          (.literalExpression 2)) :=
  c2_left_associativity.1 .SUB .SUB 8 3 2 [] 0 (Or.inr rfl) (Or.inr rfl)

/-- Claim C3: whenever a primary expression is required but the token stream
is exhausted, Parse reports END_OF_STREAM (UnexpectedEndOfInput) with the
end-of-source offset, never the generic INVALID_TOKEN (UnexpectedToken):
Primary at end of stream raises the exception with the position equal to
the token count, and Parse maps exactly that situation to END_OF_STREAM at
`sourceLen`; concretely the empty token stream, the sole "(" input and the
trailing-operator input "1+" all report END_OF_STREAM at the end-of-source
offset. -/
theorem c3_unexpected_end_of_input :
    (∀ (fuel : Nat) (tokens : List Token) (pos : Nat),
      fuel ≠ 0 → pos = tokens.length →
      Parser.Primary fuel tokens pos = .thrown pos) ∧
    (∀ (tokens : List Token) (poss : List Nat) (slen : Nat),
      Parser.Term (3 * tokens.length + 3) tokens 0 = .thrown tokens.length →
      Parser.Parse tokens poss slen = .failure ⟨.END_OF_STREAM, slen⟩) ∧
    Parser.Parse [] [] 0 = .failure ⟨.END_OF_STREAM, 0⟩ ∧
    ProcessInput ("(".toList) = .parseError ⟨.END_OF_STREAM, 1⟩ ∧
    ProcessInput ("1+".toList) = .parseError ⟨.END_OF_STREAM, 2⟩ := by
  refine ⟨?_, ?_, ?_, ?_, ?_⟩
  · intro fuel tokens pos hf hp
    subst hp
    simp [Parser.Primary, Parser.Check, Parser.IsAtEnd, hf]
  · intro tokens poss slen h
    unfold Parser.Parse
    rw [h]
    simp
  · simp +decide [Parser.Parse, Parser.Term, Parser.TermLoop, Parser.Factor,
      Parser.FactorLoop, Parser.Primary, Parser.Check, Parser.IsAtEnd, Parser.Consume]
  · simp +decide [ProcessInput, Lexer.Scan, Lexer.scanGo, Lexer.GetLiteral, Lexer.munch,
      Lexer.IsDigit, Lexer.IsWhiteSpace, stofModel, stofGo, Parser.Parse, Parser.Term,
      Parser.TermLoop, Parser.Factor, Parser.FactorLoop, Parser.Primary, Parser.Check,
      Parser.IsAtEnd, Parser.Consume]
  · simp +decide [ProcessInput, Lexer.Scan, Lexer.scanGo, Lexer.GetLiteral, Lexer.munch,
      Lexer.IsDigit, Lexer.IsWhiteSpace, stofModel, stofGo, Parser.Parse, Parser.Term,
      Parser.TermLoop, Parser.Factor, Parser.FactorLoop, Parser.Primary, Parser.Check,
      Parser.IsAtEnd, Parser.Consume]

/-- Witness for C3: Primary on the empty token stream raises the exception
at position 0. -/
theorem c3_unexpected_end_of_input_witness :
    Parser.Primary 1 [] 0 = .thrown 0 :=
  c3_unexpected_end_of_input.1 1 [] 0 (by decide) rfl

/-- Claim C4 (refuted, code bug): Parser::Consume reads `tokens[position]`
with no bounds check, so on the token stream of "(1" (a parsed
sub-expression whose required closing parenthesis is missing because the
stream is exhausted) the parser reads one past the end of the token vector:
the model returns the undefined-behaviour markers instead of a diagnostic
result. -/
theorem c4_consume_reads_past_end :
    Parser.Consume [⟨.LEFT_PAREN, 0⟩, ⟨.LITERAL, 1⟩] 2 .RIGHT_PAREN = .oob ∧
    Parser.Parse [⟨.LEFT_PAREN, 0⟩, ⟨.LITERAL, 1⟩] [0, 1] 2 = .oobUB ∧
    ProcessInput ("(1".toList) = .ub := by
  refine ⟨rfl, ?_, ?_⟩
  · simp +decide [Parser.Parse, Parser.Term, Parser.TermLoop, Parser.Factor,
      Parser.FactorLoop, Parser.Primary, Parser.Check, Parser.IsAtEnd, Parser.Consume]
  · simp +decide [ProcessInput, Lexer.Scan, Lexer.scanGo, Lexer.GetLiteral, Lexer.munch,
      Lexer.IsDigit, Lexer.IsWhiteSpace, stofModel, stofGo, Parser.Parse, Parser.Term,
      Parser.TermLoop, Parser.Factor, Parser.FactorLoop, Parser.Primary, Parser.Check,
      Parser.IsAtEnd, Parser.Consume]

/-- Claim C5: after a complete term parses, leftover tokens make Parse
report INVALID_TOKEN (UnexpectedToken) at the source position of the first
leftover token, and a parse succeeds exactly when the whole stream is
consumed; concretely "(2+1))" fails at offset 5 (the stray parenthesis) and
"23 23" fails at offset 3 (the second literal). -/
theorem c5_leftover_tokens :
    (∀ (tokens : List Token) (poss : List Nat) (slen : Nat) (e : Expression) (p : Nat),
      Parser.Term (3 * tokens.length + 3) tokens 0 = .ok e p → p ≠ tokens.length →
      Parser.Parse tokens poss slen = .failure ⟨.INVALID_TOKEN, poss.getD p 0⟩) ∧
    (∀ (tokens : List Token) (poss : List Nat) (slen : Nat) (e : Expression),
      Parser.Parse tokens poss slen = .success e ↔
        Parser.Term (3 * tokens.length + 3) tokens 0 = .ok e tokens.length) ∧
    ProcessInput ("(2+1))".toList) = .parseError ⟨.INVALID_TOKEN, 5⟩ ∧
    ProcessInput ("23 23".toList) = .parseError ⟨.INVALID_TOKEN, 3⟩ := by
  refine ⟨?_, ?_, ?_, ?_⟩
  · intro tokens poss slen e p h hne
    unfold Parser.Parse
    rw [h]
    simp [hne]
  · intro tokens poss slen e
    constructor
    · intro h
      unfold Parser.Parse at h
      cases hT : Parser.Term (3 * tokens.length + 3) tokens 0 with
      | ok e' p =>
        rw [hT] at h
        by_cases hp : p = tokens.length
        · simp [hp] at h
          rw [h, hp]
        · simp [hp] at h
      | thrown p =>
        rw [hT] at h
        by_cases hp : p = tokens.length <;> simp [hp] at h
      | oob =>
        rw [hT] at h
        simp at h
      | fuelOut =>
        rw [hT] at h
        simp at h
    · intro h
      unfold Parser.Parse
      rw [h]
      simp
  · simp +decide [ProcessInput, Lexer.Scan, Lexer.scanGo, Lexer.GetLiteral, Lexer.munch,
      Lexer.IsDigit, Lexer.IsWhiteSpace, stofModel, stofGo, Parser.Parse, Parser.Term,
      Parser.TermLoop, Parser.Factor, Parser.FactorLoop, Parser.Primary, Parser.Check,
      Parser.IsAtEnd, Parser.Consume]
  · simp +decide [ProcessInput, Lexer.Scan, Lexer.scanGo, Lexer.GetLiteral, Lexer.munch,
      Lexer.IsDigit, Lexer.IsWhiteSpace, stofModel, stofGo, Parser.Parse, Parser.Term,
      Parser.TermLoop, Parser.Factor, Parser.FactorLoop, Parser.Primary, Parser.Check,
      Parser.IsAtEnd, Parser.Consume]

/-- Witness for C5: the token stream of "23 23" parses a complete literal
with one token left over, and Parse reports INVALID_TOKEN at its recorded
source position 3. -/
theorem c5_leftover_tokens_witness :
    Parser.Parse [⟨.LITERAL, 23⟩, ⟨.LITERAL, 23⟩] [0, 3] 5
      = .failure ⟨.INVALID_TOKEN, 3⟩ :=
  c5_leftover_tokens.1 [⟨.LITERAL, 23⟩, ⟨.LITERAL, 23⟩] [0, 3] 5 (.literalExpression 23) 1
    (by simp +decide [Parser.Term, Parser.TermLoop, Parser.Factor, Parser.FactorLoop,
      Parser.Primary, Parser.Check, Parser.IsAtEnd, Parser.Consume])
    (by decide)

/-- Claim C6: a character that cannot start any token (not whitespace, not
an operator or parenthesis, not a digit — e.g. a letter, or a '.' that does
not continue a digit run) makes the scanner stop immediately with
INVALID_CHAR at that character's own byte offset, from any loop state;
concretely "3a" fails at offset 1 and ".234" fails at offset 0. -/
theorem c6_invalid_character :
    (∀ (c : Char) (rest : List Char) (pos : Nat) (toks : List Token) (poss : List Nat),
      Lexer.IsWhiteSpace c = false → c ≠ '+' → c ≠ '-' → c ≠ '*' → c ≠ '/' →
      c ≠ '(' → c ≠ ')' → Lexer.IsDigit c = false →
      Lexer.scanGo (c :: rest) pos toks poss = (toks, poss ++ [pos], ⟨.INVALID_CHAR, pos⟩)) ∧
    Lexer.Scan ("3a".toList) = ([⟨.LITERAL, 3⟩], [0, 1], ⟨.INVALID_CHAR, 1⟩) ∧
    Lexer.Scan (".234".toList) = ([], [0], ⟨.INVALID_CHAR, 0⟩) := by
  refine ⟨?_, ?_, ?_⟩
  · intro c rest pos toks poss hws h1 h2 h3 h4 h5 h6 hd
    have hGL : Lexer.GetLiteral (c :: rest) = (0, false, 0) := by
      simp [Lexer.GetLiteral, hd]
    rw [Lexer.scanGo.eq_def]
    simp only [hws, h1, h2, h3, h4, h5, h6, if_neg, if_false, Bool.false_eq_true]
    split
    next v2 n2 heq =>
      rw [hGL] at heq
      injection heq with _ rest2
      injection rest2 with hbool _
      exact absurd hbool (by simp)
    next v2 n2 heq => rfl
  · simp +decide [Lexer.Scan, Lexer.scanGo, Lexer.GetLiteral, Lexer.munch, Lexer.IsDigit,
      Lexer.IsWhiteSpace, stofModel, stofGo]
  · simp +decide [Lexer.Scan, Lexer.scanGo, Lexer.GetLiteral, Lexer.munch, Lexer.IsDigit,
      Lexer.IsWhiteSpace, stofModel, stofGo]

/-- Witness for C6: the letter 'a' at offset 0 from the initial loop state. -/
theorem c6_invalid_character_witness :
    Lexer.scanGo ['a'] 0 [] [] = ([], [0], ⟨.INVALID_CHAR, 0⟩) :=
  c6_invalid_character.1 'a' [] 0 [] [] (by decide) (by decide) (by decide) (by decide)
    (by decide) (by decide) (by decide) (by decide)

/-- Claim C7: literal scanning is maximal munch over digit+ ('.' digit*)?
with at most one decimal point per literal: the GetLiteral loop consumes
exactly a maximal digit run, an optional single '.', and a further maximal
digit run (the equivalence with `literalMunchSpec`), the consumed prefix
contains at most one '.', and concretely scanning "23.23.3" produces the
single literal token 23.23 followed by INVALID_CHAR at the second '.'
(offset 5). -/
theorem c7_literal_maximal_munch :
    (∀ cs : List Char, Lexer.munch cs false = literalMunchSpec cs) ∧
    (∀ cs : List Char, ((cs.take (Lexer.munch cs false)).count '.') ≤ 1) ∧
    Lexer.Scan ("23.23.3".toList)
      = ([⟨.LITERAL, 2323/100⟩], [0, 5], ⟨.INVALID_CHAR, 5⟩) := by
  refine ⟨Lexer.munch_false_eq_spec, Lexer.munch_take_count, ?_⟩
  simp +decide [Lexer.Scan, Lexer.scanGo, Lexer.GetLiteral, Lexer.munch, Lexer.IsDigit,
    Lexer.IsWhiteSpace, stofModel, stofGo]
  norm_num

/-- Claim C8: the evaluator has no failure path and performs no zero-check:
division is the IEEE-754 floating-point division of the model, so every
division node whose divisor evaluates to zero yields an infinity or NaN
(never a reported error), and concretely "1 / 0" evaluates to positive
infinity. -/
theorem c8_division_by_zero_ieee :
    (∀ l r : Expression, r.Evaluate = .num 0 →
      (Expression.divideExpression l r).Evaluate = .posInf ∨
      (Expression.divideExpression l r).Evaluate = .negInf ∨
      (Expression.divideExpression l r).Evaluate = .nan) ∧
    ProcessInput ("1 / 0".toList) = .value .posInf := by
  constructor
  · intro l r h
    simp only [Expression.Evaluate, h]
    cases hl : l.Evaluate with
    | num q =>
      rcases lt_trichotomy 0 q with h1 | h1 | h1
      · left
        simp [FloatVal.div, h1]
      · right; right
        rw [← h1]
        simp [FloatVal.div]
      · right; left
        simp [FloatVal.div, h1, h1.not_lt]
    | posInf =>
      left
      simp [FloatVal.div]
    | negInf =>
      right; left
      simp [FloatVal.div]
    | nan =>
      right; right
      simp [FloatVal.div]
  · simp +decide [ProcessInput, Lexer.Scan, Lexer.scanGo, Lexer.GetLiteral, Lexer.munch,
      Lexer.IsDigit, Lexer.IsWhiteSpace, stofModel, stofGo, Parser.Parse, Parser.Term,
      Parser.TermLoop, Parser.Factor, Parser.FactorLoop, Parser.Primary, Parser.Check,
      Parser.IsAtEnd, Parser.Consume, Expression.Evaluate, FloatVal.div]

/-- Witness for C8: dividing the literal 1 by the literal 0. -/
theorem c8_division_by_zero_ieee_witness :
    (Expression.divideExpression (.literalExpression 1) (.literalExpression 0)).Evaluate
        = .posInf ∨
    (Expression.divideExpression (.literalExpression 1) (.literalExpression 0)).Evaluate
        = .negInf ∨
    (Expression.divideExpression (.literalExpression 1) (.literalExpression 0)).Evaluate
        = .nan :=
  c8_division_by_zero_ieee.1 (.literalExpression 1) (.literalExpression 0) rfl

/-- Counterexample to claim C9: the literal values and the evaluation result
are not 64-bit floating-point numbers; both widths in the source are 32. -/
theorem c9_counterexample :
    ¬(Token.literal_value_bit_width = 64 ∧ Expression.Evaluate_result_bit_width = 64) := by
  decide

/-- Claim C9 as amended: literal token values and the evaluator's result are
32-bit floats (C++ `float`), not 64-bit. -/
theorem c9_values_are_float32 :
    Token.literal_value_bit_width = 32 ∧ Expression.Evaluate_result_bit_width = 32 := by
  decide

/-- Claim C10: the literal grammar has no sign, so every LITERAL token
produced by a successful scan carries a nonnegative value. -/
theorem c10_literal_values_nonneg :
    ∀ (src : List Char) (toks : List Token) (poss : List Nat) (err : Error),
      Lexer.Scan src = (toks, poss, err) → err.type = ErrorType.NO_ERROR →
      ∀ t ∈ toks, t.token_type = TokenType.LITERAL → 0 ≤ t.literal_value := by
  intro src toks poss err h _ t ht _
  have hall := Lexer.scanGo_all_nonneg src 0 [] [] (by simp)
  unfold Lexer.Scan at h
  apply hall
  rw [h]
  exact ht

/-- Witness for C10: the scan of "2" succeeds and its literal token value 2
is nonnegative. -/
theorem c10_literal_values_nonneg_witness :
    0 ≤ (Token.mk TokenType.LITERAL 2).literal_value :=
  c10_literal_values_nonneg ("2".toList) [⟨.LITERAL, 2⟩] [0] ⟨.NO_ERROR, 0⟩
    (by simp +decide [Lexer.Scan, Lexer.scanGo, Lexer.GetLiteral, Lexer.munch,
      Lexer.IsDigit, Lexer.IsWhiteSpace, stofModel, stofGo])
    rfl (Token.mk TokenType.LITERAL 2) (by simp) rfl
